import Mathlib

/-!
Verification of the serialized-module loader
(`lib/Serialization/SerializedModuleLoader.cpp`).

The loader is embedded shallowly: external collaborators (the filesystem,
`llvm::sys::path`, the `SourceManager`, and the `ModuleFile` binary reader)
are abstract functions packed into an environment record, and the mutable
context of the loader (`ASTContext` generation counter, `LoadedModules` table,
`LoadedModuleFiles` registry, `Bitstreams` map) is explicit state threaded
through each operation.  Diagnostics and filesystem probes are collected as
output traces so that "emits no diagnostic" and "does not consult the
search resolver" are statable.
-/

namespace SML

/-- The apostrophe character used when quoting dependency names in the
multiple-missing-dependencies diagnostic. -/
def quoteChar : Char := Char.ofNat 39

/-- One entry of the dependency list of a parsed module, `ModuleFile::Dependency`:
a raw textual access path and the loaded/unloaded flag as it stands after
`associateWithModule` has attempted to bind it. -/
structure Dependency where
  RawAccessPath : String
  isLoaded : Bool
deriving DecidableEq, Repr

/-- The data of a successfully parsed module record (`ModuleFile`), reduced to
what the loader inspects: its dependency list. -/
structure ModuleFileData where
  deps : List Dependency
deriving DecidableEq, Repr

/-- An `llvm::MemoryBuffer`: a buffer identifier plus abstract contents. -/
structure MemoryBuffer where
  identifier : String
  data : Nat
deriving DecidableEq, Repr

/-- Result of `llvm::MemoryBuffer::getFile` on one path. -/
inductive FileResult where
  | found (buf : MemoryBuffer)
  | noSuchFile
  | ioError (msg : String)
deriving DecidableEq, Repr

/-- An `llvm::error_code` as the loader distinguishes it:
`no_such_file_or_directory` versus anything else (carrying `err.message()`). -/
inductive FindErr where
  | noSuchFile
  | ioError (msg : String)
deriving DecidableEq, Repr

/-- Outcome of `ModuleFile::load` on a buffer.  `missingDependency` from the
initial parse is a collaborator contract violation (`llvm_unreachable`). -/
inductive ParseResult where
  | valid (mf : ModuleFileData)
  | formatTooNew
  | malformed
  | missingDependency
deriving DecidableEq, Repr

/-- A diagnostic emitted to `Ctx.Diags`, tagged with the import location
(`moduleID.second`; `none` = invalid `SourceLoc`). -/
inductive Diag where
  | semaOpeningImport (loc : Option Nat) (name : String) (msg : String)
  | serializationModuleTooNew (loc : Option Nat)
  | serializationMalformedModule (loc : Option Nat)
  | missingSingleDependency (loc : Option Nat) (rawAccessPath : String)
  | missingDependencies (loc : Option Nat) (names : String)
deriving DecidableEq, Repr

/-- A `SerializedModule` handle: display name, debug/origin label, and the
reader reference (`File`; `none` = unset = inert). -/
structure SerializedModule where
  name : String
  debugModuleName : String
  File : Option ModuleFileData
deriving DecidableEq, Repr

/-- The mutable context of the loader: the generation counter, the
`name → handle` table (handles are indices into the `modules` arena), the
registry of usable records with their generation, and the pre-registered
buffer map (`Bitstreams`; a value of `none` means the owning pointer in the
map entry has already been taken). -/
structure LoaderState where
  gen : Nat
  loadedModules : List (String × Nat)
  modules : List SerializedModule
  loadedModuleFiles : List (ModuleFileData × Nat)
  bitstreams : List (String × Option MemoryBuffer)
deriving DecidableEq, Repr

/-- The external collaborators of `loadModule`, as abstract functions:
the filesystem, the source manager (location → containing buffer →
identifier), `llvm::sys::path` operations, the configured search paths, the
serialized-module file extension, and the parse step of the binary reader. -/
structure Env where
  fs : String → FileResult
  parse : MemoryBuffer → ParseResult
  findBufferContainingLoc : Nat → Nat
  bufferIdentifier : Nat → String
  parentPath : String → String
  appendPath : String → String → String
  importSearchPaths : List String
  moduleExtension : String

/-- Association-list lookup (first match), mirroring map lookup. -/
def lookupList (l : List (String × α)) (key : String) : Option α :=
  match l with
  | [] => none
  | (k, v) :: rest => if k = key then some v else lookupList rest key

/-- Map assignment `m[key] = v`: overwrite the first entry with this key,
appending a fresh entry when the key is absent. -/
def setList (l : List (String × α)) (key : String) (v : α) : List (String × α) :=
  match l with
  | [] => [(key, v)]
  | (k, w) :: rest =>
    if k = key then (k, v) :: rest else (k, w) :: setList rest key v

/-- Embeds `Bitstreams.find(key)` followed by `OwningPtr::take()`: returns the
buffer held at `key` (if any) and the map with the buffer of that entry nulled.
The entry itself is not erased. -/
def bitstreamTake (bs : List (String × Option MemoryBuffer)) (key : String) :
    Option MemoryBuffer × List (String × Option MemoryBuffer) :=
  match bs with
  | [] => (none, [])
  | (k, v) :: rest =>
    if k = key then (v, (k, none) :: rest)
    else
      let r := bitstreamTake rest key
      (r.1, (k, v) :: r.2)

/-- The filename searched on disk, `<firstPathElement>.<moduleExtension>`. -/
def moduleFilename (env : Env) (name : String) : String :=
  name ++ (".") ++ env.moduleExtension

/-- The loop over `ctx.ImportSearchPaths` at the end of `findModule`: try
`append(path, filename)` for each configured directory in order; first
success wins; otherwise the error of the last candidate tried replaces the
error carried in from the previous candidate.  Returns the probed paths in
order together with the result. -/
def searchPathsLoop (env : Env) (filename : String) (paths : List String)
    (lastErr : FindErr) : List String × Except FindErr MemoryBuffer :=
  match paths with
  | [] => ([], Except.error lastErr)
  | p :: rest =>
    let full := env.appendPath p filename
    match env.fs full with
    | FileResult.found b => ([full], Except.ok b)
    | FileResult.noSuchFile =>
      let r := searchPathsLoop env filename rest FindErr.noSuchFile
      (full :: r.1, r.2)
    | FileResult.ioError m =>
      let r := searchPathsLoop env filename rest (FindErr.ioError m)
      (full :: r.1, r.2)

/-- The importer-directory candidate of `findModule`: when the import
location is valid, the parent directory of the buffer identifier of the
source buffer containing it, provided that directory is non-empty. -/
def importerDirCandidate (env : Env) (loc : Option Nat) : Option String :=
  match loc with
  | none => none
  | some l =>
    let dir := env.parentPath (env.bufferIdentifier (env.findBufferContainingLoc l))
    if dir = ("") then none else some dir

/-- Embeds `findModule`: search the directory of the importer (when applicable), then
the current working directory, then each import search path in order.
Returns the probed paths in order, and either the first buffer found or the
error of the last candidate tried among the working-directory and
search-path candidates (the importer-directory error is discarded). -/
def findModule (env : Env) (name : String) (loc : Option Nat) :
    List String × Except FindErr MemoryBuffer :=
  let filename := moduleFilename env name
  let step1 : List String × Option MemoryBuffer :=
    match importerDirCandidate env loc with
    | none => ([], none)
    | some dir =>
      let full := env.appendPath dir filename
      match env.fs full with
      | FileResult.found b => ([full], some b)
      | _ => ([full], none)
  match step1 with
  | (pr, some b) => (pr, Except.ok b)
  | (pr, none) =>
    match env.fs filename with
    | FileResult.found b => (pr ++ [filename], Except.ok b)
    | FileResult.noSuchFile =>
      let r := searchPathsLoop env filename env.importSearchPaths FindErr.noSuchFile
      (pr ++ filename :: r.1, r.2)
    | FileResult.ioError m =>
      let r := searchPathsLoop env filename env.importSearchPaths (FindErr.ioError m)
      (pr ++ filename :: r.1, r.2)

/-- The fully joined dotted path used as the key into the pre-registered
buffer map: `llvm::sys::path::append` of every path element onto an
initially empty string. -/
def joinedPath (env : Env) (path : List (String × Option Nat)) : String :=
  path.foldl (fun acc el => if acc = ("") then el.1 else env.appendPath acc el.1) ("")

/-- The quoted, comma-separated list built for the
multiple-missing-dependencies diagnostic:
a leading quote, the raw access paths interleaved with a quote-comma-quote
separator, and a trailing quote. -/
def missingNamesString (missing : List Dependency) : String :=
  let q := String.mk [quoteChar]
  q ++ String.intercalate (q ++ (", ") ++ q) (missing.map Dependency.RawAccessPath) ++ q

/-- Create the `SerializedModule` handle in the arena and register it in
`Ctx.LoadedModules` under the module name (unconditional overwrite).
Returns the index of the new handle. -/
def registerHandle (st : LoaderState) (name : String) (debugName : String)
    (file : Option ModuleFileData) : Nat × LoaderState :=
  let id := st.modules.length
  let m : SerializedModule := ⟨name, debugName, file⟩
  (id, { st with modules := st.modules ++ [m],
                 loadedModules := setList st.loadedModules name id })

/-- Performs `module->File = nullptr` on the handle at index `id` of the arena. -/
def clearFile : List SerializedModule → Nat → List SerializedModule
  | [], _ => []
  | m :: rest, 0 => { m with File := none } :: rest
  | m :: rest, n + 1 => m :: clearFile rest n

/-- Result of handing a found buffer to the binary reader and finishing the
load: the handle produced (if any), the updated context, the diagnostics
emitted, and whether an internal invariant was violated
(`llvm_unreachable`). -/
structure BufferLoadResult where
  result : Option Nat
  state : LoaderState
  diags : List Diag
  fatal : Bool
deriving DecidableEq, Repr

/-- The portion of `loadModule` after a buffer has been obtained:
`ModuleFile::load`, the status switch (generation bump on `Valid`,
diagnostics and record reset on `FormatTooNew`/`Malformed`, unreachable on
`MissingDependency`), handle creation and registration, and dependency
association with its missing-dependency diagnostics. -/
def loadFromBuffer (env : Env) (st : LoaderState) (moduleID : String × Option Nat)
    (b : MemoryBuffer) : BufferLoadResult :=
  let debugName := b.identifier
  match env.parse b with
  | ParseResult.missingDependency =>
    { result := none, state := st, diags := [], fatal := true }
  | ParseResult.formatTooNew =>
    let r := registerHandle st moduleID.1 debugName none
    { result := some r.1, state := r.2,
      diags := [Diag.serializationModuleTooNew moduleID.2], fatal := false }
  | ParseResult.malformed =>
    let r := registerHandle st moduleID.1 debugName none
    { result := some r.1, state := r.2,
      diags := [Diag.serializationMalformedModule moduleID.2], fatal := false }
  | ParseResult.valid mf =>
    let st1 := { st with gen := st.gen + 1 }
    let r := registerHandle st1 moduleID.1 debugName (some mf)
    if mf.deps.all Dependency.isLoaded then
      { result := some r.1,
        state := { r.2 with
                   loadedModuleFiles := r.2.loadedModuleFiles ++ [(mf, st1.gen)] },
        diags := [], fatal := false }
    else
      let missing := mf.deps.filter (fun d => !d.isLoaded)
      let diags :=
        if missing.length = 1 then
          [Diag.missingSingleDependency moduleID.2
            (missing.headD ⟨(""), false⟩).RawAccessPath]
        else
          [Diag.missingDependencies moduleID.2 (missingNamesString missing)]
      { result := some r.1,
        state := { r.2 with modules := clearFile r.2.modules r.1 },
        diags := diags, fatal := false }

/-- Outcome of one `loadModule` call: the handle produced (`none` = no
handle), the buffer handed to the binary reader (instrumentation), the
updated context, the diagnostics, the filesystem paths probed in order,
the keys looked up in the pre-registered buffer map, and the fatal flag. -/
structure LoadResult where
  result : Option Nat
  usedBuffer : Option MemoryBuffer
  state : LoaderState
  diags : List Diag
  fsProbes : List String
  bitstreamLookups : List String
  fatal : Bool
deriving DecidableEq, Repr

/-- Embeds `SerializedModuleLoader::loadModule`: reject submodule paths, consult
the pre-registered buffer map (taking the buffer on a hit), otherwise
search on disk via `findModule` (silently giving up on
`no_such_file_or_directory`, diagnosing any other error), then hand the
buffer to the binary reader and finish the load. -/
def loadModule (env : Env) (st : LoaderState) (_importLoc : Option Nat)
    (path : List (String × Option Nat)) : LoadResult :=
  if path.length > 1 then
    { result := none, usedBuffer := none, state := st, diags := [],
      fsProbes := [], bitstreamLookups := [], fatal := false }
  else
    match path with
    | [] =>
      { result := none, usedBuffer := none, state := st, diags := [],
        fsProbes := [], bitstreamLookups := [], fatal := true }
    | moduleID :: _ =>
      let bsPhase :
          Option MemoryBuffer × List (String × Option MemoryBuffer) × List String :=
        if st.bitstreams.isEmpty then
          (none, st.bitstreams, [])
        else
          let spath := joinedPath env path
          let t := bitstreamTake st.bitstreams spath
          (t.1, t.2, [spath])
      let st1 := { st with bitstreams := bsPhase.2.1 }
      match bsPhase.1 with
      | some b =>
        let r := loadFromBuffer env st1 moduleID b
        { result := r.result, usedBuffer := some b, state := r.state,
          diags := r.diags, fsProbes := [], bitstreamLookups := bsPhase.2.2,
          fatal := r.fatal }
      | none =>
        let f := findModule env moduleID.1 moduleID.2
        match f.2 with
        | Except.error e =>
          let diags :=
            match e with
            | FindErr.noSuchFile => []
            | FindErr.ioError m => [Diag.semaOpeningImport moduleID.2 moduleID.1 m]
          { result := none, usedBuffer := none, state := st1, diags := diags,
            fsProbes := f.1, bitstreamLookups := bsPhase.2.2, fatal := false }
        | Except.ok b =>
          let r := loadFromBuffer env st1 moduleID b
          { result := r.result, usedBuffer := some b, state := r.state,
            diags := r.diags, fsProbes := f.1, bitstreamLookups := bsPhase.2.2,
            fatal := r.fatal }

/-- Modelled from the spec: the caller-side import entry point.  The code
that consults `Ctx.LoadedModules` before issuing a load (the
`ASTContext`/driver side) is not under `src/`; per the spec, a load request
first checks the module-name table and returns the existing handle on a
hit, and only otherwise invokes the loader. -/
def requestModule (env : Env) (st : LoaderState) (importLoc : Option Nat)
    (path : List (String × Option Nat)) : LoadResult :=
  match path with
  | [] => loadModule env st importLoc path
  | moduleID :: _ =>
    match lookupList st.loadedModules moduleID.1 with
    | some id =>
      { result := some id, usedBuffer := none, state := st, diags := [],
        fsProbes := [], bitstreamLookups := [], fatal := false }
    | none => loadModule env st importLoc path

/-- The per-record query behavior of the external `ModuleFile` collaborator,
abstracted: declarations are identified by numbers. -/
structure QEnv where
  mfLookupValue : ModuleFileData → String → Nat → List Nat
  mfLookupOperator : ModuleFileData → String → Nat → Option Nat
  mfGetImportedModules : ModuleFileData → Bool → List Nat
  mfLookupVisibleDecls : ModuleFileData → List (String × Option Nat) → Nat → List Nat
  mfLoadExtensions : ModuleFileData → Nat → List Nat
  mfLoadDeclsConformingTo : ModuleFileData → Nat → List Nat
  mfLookupClassMembers : ModuleFileData → List (String × Option Nat) → List Nat
  mfLookupClassMember : ModuleFileData → List (String × Option Nat) → String → List Nat
  mfGetLinkLibraries : ModuleFileData → List Nat
  mfGetDisplayDecls : ModuleFileData → List Nat

/-- The scoped-import filter of `lookupValue`: a one-element access path
whose name differs from the looked-up name short-circuits the query. -/
def scopedMismatch (accessPath : List (String × Option Nat)) (name : String) : Bool :=
  match accessPath with
  | [el] => el.1 != name
  | _ => false

/-- Embeds `SerializedModuleLoader::lookupValue`: results are accumulated into the
vector of the caller, modelled by returning the updated list. -/
def lookupValue (qe : QEnv) (m : SerializedModule)
    (accessPath : List (String × Option Nat)) (name : String)
    (lookupKind : Nat) (results : List Nat) : List Nat :=
  if scopedMismatch accessPath name then results
  else
    match m.File with
    | none => results
    | some mf => results ++ qe.mfLookupValue mf name lookupKind

/-- Embeds `SerializedModuleLoader::lookupOperator`. -/
def lookupOperator (qe : QEnv) (m : SerializedModule) (name : String)
    (fixity : Nat) : Option Nat :=
  match m.File with
  | none => none
  | some mf => qe.mfLookupOperator mf name fixity

/-- Embeds `SerializedModuleLoader::getImportedModules`. -/
def getImportedModules (qe : QEnv) (m : SerializedModule)
    (imports : List Nat) (includePrivate : Bool) : List Nat :=
  match m.File with
  | none => imports
  | some mf => imports ++ qe.mfGetImportedModules mf includePrivate

/-- Embeds `SerializedModuleLoader::lookupVisibleDecls`; the consumer callback is
modelled by returning the list of declarations streamed into it. -/
def lookupVisibleDecls (qe : QEnv) (m : SerializedModule)
    (accessPath : List (String × Option Nat)) (lookupKind : Nat) : List Nat :=
  match m.File with
  | none => []
  | some mf => qe.mfLookupVisibleDecls mf accessPath lookupKind

/-- Embeds `SerializedModuleLoader::lookupClassMembers` (consumer modelled as the
list of streamed declarations). -/
def lookupClassMembers (qe : QEnv) (m : SerializedModule)
    (accessPath : List (String × Option Nat)) : List Nat :=
  match m.File with
  | none => []
  | some mf => qe.mfLookupClassMembers mf accessPath

/-- Embeds `SerializedModuleLoader::lookupClassMember`. -/
def lookupClassMember (qe : QEnv) (m : SerializedModule)
    (accessPath : List (String × Option Nat)) (name : String)
    (decls : List Nat) : List Nat :=
  match m.File with
  | none => decls
  | some mf => decls ++ qe.mfLookupClassMember mf accessPath name

/-- Embeds `SerializedModuleLoader::getLinkLibraries` (callback modelled as the
list of libraries passed to it). -/
def getLinkLibraries (qe : QEnv) (m : SerializedModule) : List Nat :=
  match m.File with
  | none => []
  | some mf => qe.mfGetLinkLibraries mf

/-- Embeds `SerializedModuleLoader::getDisplayDecls`. -/
def getDisplayDecls (qe : QEnv) (m : SerializedModule)
    (results : List Nat) : List Nat :=
  match m.File with
  | none => results
  | some mf => results ++ qe.mfGetDisplayDecls mf

/-- Embeds `SerializedModuleLoader::loadExtensions`: walk the `LoadedModuleFiles`
registry in order, skipping entries whose recorded generation is at most
`previousGeneration`, and delegate to each remaining record.  Modelled as
returning each visited record paired with its delegated contribution. -/
def loadExtensions (qe : QEnv) (entries : List (ModuleFileData × Nat))
    (nominal : Nat) (previousGeneration : Nat) :
    List (ModuleFileData × List Nat) :=
  match entries with
  | [] => []
  | p :: rest =>
    if p.2 ≤ previousGeneration then loadExtensions qe rest nominal previousGeneration
    else (p.1, qe.mfLoadExtensions p.1 nominal) ::
          loadExtensions qe rest nominal previousGeneration

/-- Embeds `SerializedModuleLoader::loadDeclsConformingTo`: same generation filter
and order as `loadExtensions`. -/
def loadDeclsConformingTo (qe : QEnv) (entries : List (ModuleFileData × Nat))
    (kind : Nat) (previousGeneration : Nat) :
    List (ModuleFileData × List Nat) :=
  match entries with
  | [] => []
  | p :: rest =>
    if p.2 ≤ previousGeneration then loadDeclsConformingTo qe rest kind previousGeneration
    else (p.1, qe.mfLoadDeclsConformingTo p.1 kind) ::
          loadDeclsConformingTo qe rest kind previousGeneration

/-! Spec-side descriptions of the search, used to state the search-order
claim as a refinement of the code-side `loadModule`/`findModule`. -/

/-- The buffer a successful `getFile` at path `p` would yield. -/
def foundAt (env : Env) (p : String) : Option MemoryBuffer :=
  match env.fs p with
  | FileResult.found b => some b
  | _ => none

/-- The buffer currently held for `key` in the pre-registered buffer map
(`none` when the key is absent or its buffer was already taken). -/
def bitstreamValue (bs : List (String × Option MemoryBuffer)) (key : String) :
    Option MemoryBuffer :=
  (lookupList bs key).join

/-- Spec-side: the buffer of the importer-directory candidate, when that search
step applies and hits. -/
def importerDirHit (env : Env) (name : String) (loc : Option Nat) :
    Option MemoryBuffer :=
  match importerDirCandidate env loc with
  | none => none
  | some dir => foundAt env (env.appendPath dir (moduleFilename env name))

/-- Spec-side: the first hit among the configured search directories, in
configured order. -/
def searchPathsHit (env : Env) (name : String) : Option MemoryBuffer :=
  env.importSearchPaths.findSome?
    (fun p => foundAt env (env.appendPath p (moduleFilename env name)))

/-- Spec-side search order for a single-element module path, following the
words of the spec: the in-memory pre-registered buffer first, then the
directory of the importer, then the current working directory, then the search
directories in order; first match wins. -/
def specSearchOrder (env : Env) (bs : List (String × Option MemoryBuffer))
    (name : String) (loc : Option Nat) : Option MemoryBuffer :=
  bitstreamValue bs name <|>
    (importerDirHit env name loc <|>
      (foundAt env (moduleFilename env name) <|> searchPathsHit env name))

/-- The buffer of an `Except.ok` search result. -/
def okBuffer : Except FindErr MemoryBuffer → Option MemoryBuffer
  | Except.ok b => some b
  | Except.error _ => none

lemma joinedPath_single (env : Env) (name : String) (l : Option Nat) :
    joinedPath env [(name, l)] = name := by
  simp [joinedPath]

lemma bitstreamTake_fst (bs : List (String × Option MemoryBuffer)) (key : String) :
    (bitstreamTake bs key).1 = (lookupList bs key).join := by
  induction bs with
  | nil => rfl
  | cons p rest ih =>
    simp only [bitstreamTake, lookupList]
    by_cases h : p.1 = key
    · simp [h]
    · simp [h, ih]

lemma lookupList_bitstreamTake_self (bs : List (String × Option MemoryBuffer))
    (key : String) :
    lookupList (bitstreamTake bs key).2 key
      = (lookupList bs key).map (fun _ => none) := by
  induction bs with
  | nil => rfl
  | cons p rest ih =>
    simp only [bitstreamTake, lookupList]
    by_cases h : p.1 = key
    · simp [h, lookupList]
    · simp [h, lookupList, ih]

lemma lookupList_bitstreamTake_other (bs : List (String × Option MemoryBuffer))
    (key k : String) (hk : k ≠ key) :
    lookupList (bitstreamTake bs key).2 k = lookupList bs k := by
  induction bs with
  | nil => rfl
  | cons p rest ih =>
    simp only [bitstreamTake, lookupList]
    by_cases h : p.1 = key
    · subst h
      simp [lookupList, Ne.symm hk]
    · simp [h, lookupList, ih]

lemma lookupList_setList_self (l : List (String × α)) (key : String) (v : α) :
    lookupList (setList l key v) key = some v := by
  induction l with
  | nil => simp [setList, lookupList]
  | cons p rest ih =>
    simp only [setList]
    by_cases h : p.1 = key
    · simp [h, lookupList]
    · simp [h, lookupList, ih]

lemma searchPathsLoop_okBuffer (env : Env) (fn : String) (ps : List String)
    (e : FindErr) :
    okBuffer (searchPathsLoop env fn ps e).2
      = ps.findSome? (fun p => foundAt env (env.appendPath p fn)) := by
  induction ps generalizing e with
  | nil => rfl
  | cons p rest ih =>
    simp only [searchPathsLoop, List.findSome?]
    cases hf : env.fs (env.appendPath p fn) with
    | found b => simp [okBuffer, foundAt, hf]
    | noSuchFile => simp [foundAt, hf, ih]
    | ioError m => simp [foundAt, hf, ih]

lemma findModule_okBuffer (env : Env) (name : String) (loc : Option Nat) :
    okBuffer (findModule env name loc).2
      = (importerDirHit env name loc <|>
          (foundAt env (moduleFilename env name) <|> searchPathsHit env name)) := by
  unfold findModule importerDirHit searchPathsHit
  cases hc : importerDirCandidate env loc with
  | none =>
    simp only
    cases hf : env.fs (moduleFilename env name) with
    | found b => simp [okBuffer, foundAt, hf]
    | noSuchFile => simp [foundAt, hf, searchPathsLoop_okBuffer]
    | ioError m => simp [foundAt, hf, searchPathsLoop_okBuffer]
  | some dir =>
    simp only
    cases hd : env.fs (env.appendPath dir (moduleFilename env name)) with
    | found b => simp [okBuffer, foundAt, hd]
    | noSuchFile =>
      simp only [foundAt, hd]
      cases hf : env.fs (moduleFilename env name) with
      | found b => simp [okBuffer, foundAt, hf]
      | noSuchFile => simp [foundAt, hf, searchPathsLoop_okBuffer]
      | ioError m => simp [foundAt, hf, searchPathsLoop_okBuffer]
    | ioError m =>
      simp only [foundAt, hd]
      cases hf : env.fs (moduleFilename env name) with
      | found b => simp [okBuffer, foundAt, hf]
      | noSuchFile => simp [foundAt, hf, searchPathsLoop_okBuffer]
      | ioError m2 => simp [foundAt, hf, searchPathsLoop_okBuffer]

lemma loadModule_usedBuffer (env : Env) (st : LoaderState) (il : Option Nat)
    (name : String) (eLoc : Option Nat) :
    (loadModule env st il [(name, eLoc)]).usedBuffer
      = (bitstreamValue st.bitstreams name <|> okBuffer (findModule env name eLoc).2) := by
  unfold loadModule
  simp only [List.length_cons, List.length_nil]
  rw [if_neg (by omega)]
  by_cases hbe : st.bitstreams.isEmpty
  · have hnil : st.bitstreams = [] := by
      cases h : st.bitstreams with
      | nil => rfl
      | cons a l => rw [h] at hbe; simp [List.isEmpty] at hbe
    simp only [hbe, if_true, hnil]
    have hbv : bitstreamValue ([] : List (String × Option MemoryBuffer)) name = none := rfl
    rw [hbv]
    cases hf : (findModule env name eLoc).2 with
    | error e => cases e <;> simp [okBuffer]
    | ok b => simp [okBuffer]
  · simp only [hbe, if_false, joinedPath_single, Bool.false_eq_true]
    rw [bitstreamTake_fst]
    show _ = (bitstreamValue st.bitstreams name).orElse _
    unfold bitstreamValue
    cases hl : (lookupList st.bitstreams name).join with
    | some b => simp
    | none =>
      simp only [Option.none_orElse]
      cases hf : (findModule env name eLoc).2 with
      | error e => cases e <;> simp [okBuffer]
      | ok b => simp [okBuffer]

/-- Whether a parse outcome is `Valid`. -/
def isValidParse : ParseResult → Bool
  | ParseResult.valid _ => true
  | _ => false

lemma loadFromBuffer_gen (env : Env) (st : LoaderState) (moduleID : String × Option Nat)
    (b : MemoryBuffer) :
    (loadFromBuffer env st moduleID b).state.gen
      = st.gen + (if isValidParse (env.parse b) then 1 else 0) := by
  unfold loadFromBuffer
  cases hp : env.parse b with
  | valid mf =>
    simp only [isValidParse, if_true, registerHandle]
    by_cases hd : mf.deps.all Dependency.isLoaded
    · simp [hd]
    · simp [hd]
  | formatTooNew => simp [isValidParse, registerHandle]
  | malformed => simp [isValidParse, registerHandle]
  | missingDependency => simp [isValidParse]

/-- C1 (amended): the generation counter is incremented exactly once per
load that obtains a buffer whose parse status is `Valid` — including when
dependency association subsequently fails — and is never incremented when
no buffer is obtained or the parse fails (`FormatTooNew`, `Malformed`). -/
theorem c1_generation_bumped_iff_valid_parse (env : Env) (st : LoaderState)
    (il : Option Nat) (path : List (String × Option Nat)) :
    (loadModule env st il path).state.gen
      = st.gen + (match (loadModule env st il path).usedBuffer with
          | some b => if isValidParse (env.parse b) then 1 else 0
          | none => 0) := by
  unfold loadModule
  by_cases hlen : path.length > 1
  · simp [hlen]
  · rw [if_neg hlen]
    cases path with
    | nil => simp
    | cons moduleID rest =>
      simp only
      by_cases hbe : st.bitstreams.isEmpty
      · simp only [hbe, if_true]
        cases hf : (findModule env moduleID.1 moduleID.2).2 with
        | error e => cases e <;> simp
        | ok b => simp [loadFromBuffer_gen]
      · simp only [hbe, if_false, Bool.false_eq_true]
        cases hb : (bitstreamTake st.bitstreams (joinedPath env (moduleID :: rest))).1 with
        | some b => simp [hb, loadFromBuffer_gen]
        | none =>
          simp only [hb]
          cases hf : (findModule env moduleID.1 moduleID.2).2 with
          | error e => cases e <;> simp
          | ok b => simp [loadFromBuffer_gen]

/-- A concrete buffer found on disk at `M.sm`, used in counterexamples and
witnesses. -/
def bufM : MemoryBuffer := ⟨("M.sm"), 0⟩

/-- A concrete environment: the filesystem holds `M.sm` in the working
directory and the reader parses any buffer as `Valid` with a single
unloaded dependency `Foo`. -/
def envMissingDep : Env :=
  { fs := fun p => if p = ("M.sm") then FileResult.found bufM else FileResult.noSuchFile
  , parse := fun _ => ParseResult.valid ⟨[⟨("Foo"), false⟩]⟩
  , findBufferContainingLoc := fun _ => 0
  , bufferIdentifier := fun _ => ("")
  , parentPath := fun _ => ("")
  , appendPath := fun a b => a ++ ("/") ++ b
  , importSearchPaths := []
  , moduleExtension := ("sm") }

/-- The empty loader context: generation 0, no handles, no registry
entries, no pre-registered buffers. -/
def emptyState : LoaderState := ⟨0, [], [], [], []⟩

/-- C1 counterexample: a load whose parse status is `Valid` but whose
dependency association fails still increments the generation counter —
after this load the counter rose from 0 to 1 while no module became fully
usable (the usable-records registry stayed empty and the reader reference
of the produced handle is unset). -/
theorem c1_counterexample_bump_without_usable_module :
    (loadModule envMissingDep emptyState none [(("M"), none)]).state.gen = 1 ∧
    (loadModule envMissingDep emptyState none [(("M"), none)]).state.loadedModuleFiles
      = [] ∧
    (loadModule envMissingDep emptyState none [(("M"), none)]).state.modules
      = [⟨("M"), ("M.sm"), none⟩] := by
  decide

/-- C3: for a single-element module path, the buffer handed to the binary
reader is the first hit in the fixed order: exact-name lookup in the
in-memory pre-registered buffer map, then the directory of the importer (when
the import location is valid), then the current working directory, then
each configured search directory in configured order; an earlier hit always
wins over later candidates. -/
theorem c3_search_order (env : Env) (st : LoaderState) (il : Option Nat)
    (name : String) (eLoc : Option Nat) :
    (loadModule env st il [(name, eLoc)]).usedBuffer
      = specSearchOrder env st.bitstreams name eLoc := by
  rw [loadModule_usedBuffer]
  simp only [findModule_okBuffer]
  rfl

lemma loadFromBuffer_registers (env : Env) (st : LoaderState)
    (moduleID : String × Option Nat) (b : MemoryBuffer) (id : Nat)
    (h : (loadFromBuffer env st moduleID b).result = some id) :
    lookupList (loadFromBuffer env st moduleID b).state.loadedModules moduleID.1
      = some id := by
  unfold loadFromBuffer registerHandle at h ⊢
  cases hp : env.parse b with
  | valid mf =>
    rw [hp] at h
    by_cases hd : mf.deps.all Dependency.isLoaded
    · simp only [hd, if_true] at h ⊢
      simp only [Option.some_inj] at h
      subst h
      exact lookupList_setList_self _ _ _
    · simp only [hd, if_false, Bool.false_eq_true] at h ⊢
      simp only [Option.some_inj] at h
      subst h
      exact lookupList_setList_self _ _ _
  | formatTooNew =>
    rw [hp] at h
    simp only [Option.some_inj] at h
    subst h
    simp only [hp]
    exact lookupList_setList_self _ _ _
  | malformed =>
    rw [hp] at h
    simp only [Option.some_inj] at h
    subst h
    simp only [hp]
    exact lookupList_setList_self _ _ _
  | missingDependency =>
    rw [hp] at h
    simp at h

lemma loadFromBuffer_bitstreams (env : Env) (st : LoaderState)
    (moduleID : String × Option Nat) (b : MemoryBuffer) :
    (loadFromBuffer env st moduleID b).state.bitstreams = st.bitstreams := by
  unfold loadFromBuffer registerHandle
  cases env.parse b with
  | valid mf =>
    by_cases hd : mf.deps.all Dependency.isLoaded
    · simp [hd]
    · simp [hd]
  | formatTooNew => rfl
  | malformed => rfl
  | missingDependency => rfl

/-- When a single-element load obtains a buffer, the rest of the call is
exactly `loadFromBuffer` on the context whose pre-registered map has been
updated by the lookup; that update touches no other context field. -/
lemma loadModule_hit (env : Env) (st : LoaderState) (il : Option Nat)
    (name : String) (eLoc : Option Nat) (b : MemoryBuffer)
    (hb : (loadModule env st il [(name, eLoc)]).usedBuffer = some b) :
    ∃ st1 : LoaderState,
      st1.modules = st.modules ∧ st1.gen = st.gen ∧
      st1.loadedModules = st.loadedModules ∧
      st1.loadedModuleFiles = st.loadedModuleFiles ∧
      (loadModule env st il [(name, eLoc)]).result
        = (loadFromBuffer env st1 (name, eLoc) b).result ∧
      (loadModule env st il [(name, eLoc)]).diags
        = (loadFromBuffer env st1 (name, eLoc) b).diags ∧
      (loadModule env st il [(name, eLoc)]).state
        = (loadFromBuffer env st1 (name, eLoc) b).state := by
  unfold loadModule at hb ⊢
  simp only [List.length_cons, List.length_nil] at hb ⊢
  rw [if_neg (by omega)] at hb ⊢
  by_cases hbe : st.bitstreams.isEmpty
  · simp only [hbe, if_true] at hb ⊢
    cases hf : (findModule env name eLoc).2 with
    | error e =>
      rw [hf] at hb
      cases e <;> simp at hb
    | ok b2 =>
      rw [hf] at hb
      simp only at hb
      have hb2 : b2 = b := by
        simpa using hb
      subst hb2
      exact ⟨{ st with bitstreams := st.bitstreams }, rfl, rfl, rfl, rfl, rfl, rfl, rfl⟩
  · simp only [hbe, if_false, Bool.false_eq_true] at hb ⊢
    cases ht : (bitstreamTake st.bitstreams (joinedPath env [(name, eLoc)])).1 with
    | some b2 =>
      rw [ht] at hb
      simp only at hb
      have hb2 : b2 = b := by simpa using hb
      subst hb2
      exact ⟨{ st with
               bitstreams := (bitstreamTake st.bitstreams
                 (joinedPath env [(name, eLoc)])).2 },
             rfl, rfl, rfl, rfl, rfl, rfl, rfl⟩
    | none =>
      rw [ht] at hb
      simp only at hb ⊢
      cases hf : (findModule env name eLoc).2 with
      | error e =>
        rw [hf] at hb
        cases e <;> simp at hb
      | ok b2 =>
        rw [hf] at hb
        have hb2 : b2 = b := by simpa using hb
        subst hb2
        exact ⟨{ st with
                 bitstreams := (bitstreamTake st.bitstreams
                   (joinedPath env [(name, eLoc)])).2 },
               rfl, rfl, rfl, rfl, rfl, rfl, rfl⟩

lemma loadModule_result_some_usedBuffer (env : Env) (st : LoaderState)
    (il : Option Nat) (name : String) (eLoc : Option Nat) (id : Nat)
    (h : (loadModule env st il [(name, eLoc)]).result = some id) :
    ∃ b, (loadModule env st il [(name, eLoc)]).usedBuffer = some b := by
  unfold loadModule at h ⊢
  simp only [List.length_cons, List.length_nil] at h ⊢
  rw [if_neg (by omega)] at h ⊢
  by_cases hbe : st.bitstreams.isEmpty
  · simp only [hbe, if_true] at h ⊢
    cases hf : (findModule env name eLoc).2 with
    | error e =>
      rw [hf] at h
      simp at h
    | ok b2 =>
      exact ⟨b2, rfl⟩
  · simp only [hbe, if_false, Bool.false_eq_true] at h ⊢
    cases ht : (bitstreamTake st.bitstreams (joinedPath env [(name, eLoc)])).1 with
    | some b2 =>
      exact ⟨b2, rfl⟩
    | none =>
      rw [ht] at h
      simp only at h ⊢
      cases hf : (findModule env name eLoc).2 with
      | error e =>
        rw [hf] at h
        simp at h
      | ok b2 =>
        exact ⟨b2, rfl⟩

lemma loadModule_registers (env : Env) (st : LoaderState) (il : Option Nat)
    (name : String) (eLoc : Option Nat) (id : Nat)
    (h : (loadModule env st il [(name, eLoc)]).result = some id) :
    lookupList (loadModule env st il [(name, eLoc)]).state.loadedModules name
      = some id := by
  obtain ⟨b, hb⟩ := loadModule_result_some_usedBuffer env st il name eLoc id h
  obtain ⟨st1, _, _, _, _, hres, _, hstate⟩ :=
    loadModule_hit env st il name eLoc b hb
  rw [hstate]
  rw [hres] at h
  exact loadFromBuffer_registers env st1 (name, eLoc) b id h

/-- C2 (amended): once a load request for a name has produced a Module
Handle (a buffer was found, whatever its parse status), a second request
for that name does not run the Search Resolver again — no map lookup, no
filesystem probe, no diagnostic, no state change — and returns the very
same handle. -/
theorem c2_second_request_returns_same_handle (env : Env) (st : LoaderState)
    (il il2 : Option Nat) (name : String) (eLoc eLoc2 : Option Nat) (id : Nat)
    (h : (requestModule env st il [(name, eLoc)]).result = some id) :
    requestModule env (requestModule env st il [(name, eLoc)]).state il2
        [(name, eLoc2)]
      = { result := some id, usedBuffer := none,
          state := (requestModule env st il [(name, eLoc)]).state,
          diags := [], fsProbes := [], bitstreamLookups := [], fatal := false } := by
  have hreg : lookupList (requestModule env st il [(name, eLoc)]).state.loadedModules
      name = some id := by
    simp only [requestModule] at h ⊢
    cases hl : lookupList st.loadedModules name with
    | some id0 =>
      rw [hl] at h
      have h3 : id0 = id := Option.some_inj.mp h
      subst h3
      exact hl
    | none =>
      rw [hl] at h
      exact loadModule_registers env st il name eLoc id h
  generalize hS : (requestModule env st il [(name, eLoc)]).state = S at hreg ⊢
  simp only [requestModule]
  rw [hreg]

/-- A filesystem holding no files at all: every candidate everywhere fails
with `no_such_file_or_directory`. -/
def envNothing : Env :=
  { fs := fun _ => FileResult.noSuchFile
  , parse := fun _ => ParseResult.malformed
  , findBufferContainingLoc := fun _ => 0
  , bufferIdentifier := fun _ => ("")
  , parentPath := fun _ => ("")
  , appendPath := fun a b => a ++ ("/") ++ b
  , importSearchPaths := []
  , moduleExtension := ("sm") }

/-- C2 counterexample: a name whose search finds nothing is not protected
by the at-most-once rule — the first request produced no handle and
registered nothing, and a second request for the same, already-attempted
name runs the Search Resolver again (a fresh filesystem probe trace on
both requests). -/
theorem c2_counterexample_notfound_searched_twice :
    (requestModule envNothing emptyState none [(("M"), none)]).result = none ∧
    (requestModule envNothing emptyState none [(("M"), none)]).fsProbes
      = [("M.sm")] ∧
    (requestModule envNothing
        (requestModule envNothing emptyState none [(("M"), none)]).state none
        [(("M"), none)]).fsProbes = [("M.sm")] := by
  decide

/-- C2 witness: with `M.sm` present on disk, the first request produces
handle 0 and the second request returns handle 0 with no search activity. -/
theorem c2_witness_second_request_no_search :
    (requestModule envMissingDep emptyState none [(("M"), none)]).result
      = some 0 ∧
    requestModule envMissingDep
        (requestModule envMissingDep emptyState none [(("M"), none)]).state none
        [(("M"), none)]
      = { result := some 0, usedBuffer := none,
          state := (requestModule envMissingDep emptyState none
            [(("M"), none)]).state,
          diags := [], fsProbes := [], bitstreamLookups := [], fatal := false } :=
  ⟨by decide,
   c2_second_request_returns_same_handle envMissingDep emptyState none none
     ("M") none none 0 (by decide)⟩

lemma loadModule_bitstreams (env : Env) (st : LoaderState) (il : Option Nat)
    (name : String) (eLoc : Option Nat) :
    (loadModule env st il [(name, eLoc)]).state.bitstreams
      = (if st.bitstreams.isEmpty then st.bitstreams
         else (bitstreamTake st.bitstreams name).2) := by
  unfold loadModule
  simp only [List.length_cons, List.length_nil]
  rw [if_neg (by omega)]
  by_cases hbe : st.bitstreams.isEmpty
  · simp only [hbe, if_true]
    cases hf : (findModule env name eLoc).2 with
    | error e => rfl
    | ok b => simp [loadFromBuffer_bitstreams]
  · simp only [hbe, if_false, Bool.false_eq_true, joinedPath_single]
    cases ht : (bitstreamTake st.bitstreams name).1 with
    | some b => simp [loadFromBuffer_bitstreams]
    | none =>
      simp only
      cases hf : (findModule env name eLoc).2 with
      | error e => rfl
      | ok b => simp [loadFromBuffer_bitstreams]

/-- C4 (amended): a hit in the pre-registered buffer map takes the buffer
of the entry rather than erasing the entry: the load uses the registered buffer;
afterwards the key is still present in the map but holds no buffer, so a
later load for the same name no longer obtains a buffer from the map;
entries for other names are unchanged. -/
theorem c4_bitstream_taken_on_hit (env : Env) (st : LoaderState) (il : Option Nat)
    (name : String) (eLoc : Option Nat) (b : MemoryBuffer)
    (h : lookupList st.bitstreams name = some (some b)) :
    (loadModule env st il [(name, eLoc)]).usedBuffer = some b ∧
    lookupList (loadModule env st il [(name, eLoc)]).state.bitstreams name
      = some none ∧
    bitstreamValue (loadModule env st il [(name, eLoc)]).state.bitstreams name
      = none ∧
    (∀ k, k ≠ name →
      lookupList (loadModule env st il [(name, eLoc)]).state.bitstreams k
        = lookupList st.bitstreams k) := by
  have hne : st.bitstreams.isEmpty = false := by
    cases hb2 : st.bitstreams with
    | nil => rw [hb2] at h; simp [lookupList] at h
    | cons a l => rfl
  have hbsv : bitstreamValue st.bitstreams name = some b := by
    unfold bitstreamValue
    rw [h]
    rfl
  have hbits := loadModule_bitstreams env st il name eLoc
  simp only [hne, Bool.false_eq_true, if_false] at hbits
  refine ⟨?_, ?_, ?_, ?_⟩
  · rw [loadModule_usedBuffer, hbsv]
    rfl
  · rw [hbits, lookupList_bitstreamTake_self, h]
    rfl
  · unfold bitstreamValue
    rw [hbits, lookupList_bitstreamTake_self, h]
    rfl
  · intro k hk
    rw [hbits]
    exact lookupList_bitstreamTake_other _ _ _ hk

/-- A context whose pre-registered buffer map holds a buffer for `M`. -/
def stateWithBitstream : LoaderState := ⟨0, [], [], [], [(("M"), some bufM)]⟩

/-- C4 counterexample: after a load served from the pre-registered map the
matching entry is NOT removed from the map — the key `M` is still present
(now holding no buffer), whereas removal would make the lookup fail. -/
theorem c4_counterexample_entry_not_removed :
    (loadModule envMissingDep stateWithBitstream none
        [(("M"), none)]).state.bitstreams = [(("M"), none)] ∧
    lookupList (loadModule envMissingDep stateWithBitstream none
        [(("M"), none)]).state.bitstreams ("M") = some none := by
  decide

/-- C4 witness: instantiating the amended claim on the concrete map that
holds a buffer for `M`. -/
theorem c4_witness_hit_consumes_buffer :
    lookupList stateWithBitstream.bitstreams ("M") = some (some bufM) ∧
    (loadModule envMissingDep stateWithBitstream none [(("M"), none)]).usedBuffer
      = some bufM :=
  ⟨by decide,
   (c4_bitstream_taken_on_hit envMissingDep stateWithBitstream none ("M") none bufM
      (by decide)).1⟩

lemma clearFile_concat (l : List SerializedModule) (m : SerializedModule) :
    clearFile (l ++ [m]) l.length = l ++ [{ m with File := none }] := by
  induction l with
  | nil => rfl
  | cons a rest ih => simp [clearFile, ih]

lemma getD_concat {α : Type} (l : List α) (m d : α) :
    (l ++ [m]).getD l.length d = m := by
  induction l with
  | nil => rfl
  | cons a rest ih => simp

lemma loadFromBuffer_missing_deps (env : Env) (st : LoaderState)
    (moduleID : String × Option Nat) (b : MemoryBuffer) (mf : ModuleFileData)
    (hv : env.parse b = ParseResult.valid mf)
    (hmiss : mf.deps.all Dependency.isLoaded = false) :
    (loadFromBuffer env st moduleID b).diags
      = (if (mf.deps.filter (fun d => !d.isLoaded)).length = 1
         then [Diag.missingSingleDependency moduleID.2
                ((mf.deps.filter (fun d => !d.isLoaded)).headD
                  ⟨(""), false⟩).RawAccessPath]
         else [Diag.missingDependencies moduleID.2
                (missingNamesString (mf.deps.filter (fun d => !d.isLoaded)))]) ∧
    (loadFromBuffer env st moduleID b).result = some st.modules.length ∧
    (loadFromBuffer env st moduleID b).state.modules
      = st.modules ++ [⟨moduleID.1, b.identifier, none⟩] := by
  unfold loadFromBuffer registerHandle
  rw [hv]
  simp only [hmiss, Bool.false_eq_true, if_false]
  refine ⟨trivial, trivial, ?_⟩
  simpa using clearFile_concat st.modules ⟨moduleID.1, b.identifier, some mf⟩

/-- C5: when dependency association fails after a `Valid` parse, the load
emits exactly one diagnostic naming exactly the unloaded dependencies — a
single unloaded dependency is reported by its raw access path alone, and
several are reported as one quoted, comma-separated list in their original
declaration order — and the reader reference of the produced handle is left
unset. -/
theorem c5_missing_dependency_diagnostics (env : Env) (st : LoaderState)
    (il : Option Nat) (name : String) (eLoc : Option Nat) (b : MemoryBuffer)
    (mf : ModuleFileData)
    (hb : (loadModule env st il [(name, eLoc)]).usedBuffer = some b)
    (hv : env.parse b = ParseResult.valid mf)
    (hmiss : mf.deps.all Dependency.isLoaded = false) :
    (∀ d, mf.deps.filter (fun d2 => !d2.isLoaded) = [d] →
      (loadModule env st il [(name, eLoc)]).diags
        = [Diag.missingSingleDependency eLoc d.RawAccessPath]) ∧
    (1 < (mf.deps.filter (fun d => !d.isLoaded)).length →
      (loadModule env st il [(name, eLoc)]).diags
        = [Diag.missingDependencies eLoc
            (missingNamesString (mf.deps.filter (fun d => !d.isLoaded)))]) ∧
    (∀ id, (loadModule env st il [(name, eLoc)]).result = some id →
      ((loadModule env st il [(name, eLoc)]).state.modules.getD id
          ⟨(""), (""), none⟩).File = none) := by
  obtain ⟨st1, hmods, _, _, _, hres, hdiags, hstate⟩ :=
    loadModule_hit env st il name eLoc b hb
  obtain ⟨hd, hr, hm⟩ := loadFromBuffer_missing_deps env st1 (name, eLoc) b mf hv hmiss
  refine ⟨?_, ?_, ?_⟩
  · intro d hone
    rw [hdiags, hd, hone]
    simp
  · intro hmany
    rw [hdiags, hd]
    rw [if_neg (by omega)]
  · intro id hid
    rw [hres] at hid
    rw [hr] at hid
    have hid2 : id = st1.modules.length := (Option.some_inj.mp hid).symm
    subst hid2
    rw [hstate, hm, getD_concat]

/-- C5 witness: the concrete single-missing-dependency load reports exactly
`Foo` and leaves the reader reference of the handle unset. -/
theorem c5_witness_single_missing_dependency :
    (loadModule envMissingDep emptyState none [(("M"), none)]).diags
      = [Diag.missingSingleDependency none ("Foo")] ∧
    (loadModule envMissingDep emptyState none [(("M"), none)]).result = some 0 ∧
    ((loadModule envMissingDep emptyState none
        [(("M"), none)]).state.modules.getD 0 ⟨(""), (""), none⟩).File = none := by
  have h := c5_missing_dependency_diagnostics envMissingDep emptyState none ("M")
    none bufM ⟨[⟨("Foo"), false⟩]⟩ (by decide) (by decide) (by decide)
  exact ⟨h.1 ⟨("Foo"), false⟩ (by decide), by decide,
         h.2.2 0 (by decide)⟩

lemma searchPathsLoop_all_noSuchFile (env : Env) (fn : String) (ps : List String)
    (h : ∀ p, env.fs p = FileResult.noSuchFile) :
    (searchPathsLoop env fn ps FindErr.noSuchFile).2
      = Except.error FindErr.noSuchFile := by
  induction ps with
  | nil => rfl
  | cons p rest ih =>
    simp only [searchPathsLoop, h (env.appendPath p fn)]
    exact ih

lemma findModule_all_noSuchFile (env : Env) (name : String) (loc : Option Nat)
    (h : ∀ p, env.fs p = FileResult.noSuchFile) :
    (findModule env name loc).2 = Except.error FindErr.noSuchFile := by
  unfold findModule
  cases hc : importerDirCandidate env loc with
  | none =>
    simp only [h (moduleFilename env name)]
    exact searchPathsLoop_all_noSuchFile env (moduleFilename env name)
      env.importSearchPaths h
  | some dir =>
    simp only [h (env.appendPath dir (moduleFilename env name)),
               h (moduleFilename env name)]
    exact searchPathsLoop_all_noSuchFile env (moduleFilename env name)
      env.importSearchPaths h

lemma loadModule_find_error (env : Env) (st : LoaderState) (il : Option Nat)
    (name : String) (eLoc : Option Nat) (e : FindErr)
    (hbs : bitstreamValue st.bitstreams name = none)
    (hf : (findModule env name eLoc).2 = Except.error e) :
    (loadModule env st il [(name, eLoc)]).result = none ∧
    (loadModule env st il [(name, eLoc)]).diags
      = (match e with
         | FindErr.noSuchFile => []
         | FindErr.ioError m => [Diag.semaOpeningImport eLoc name m]) := by
  unfold loadModule
  simp only [List.length_cons, List.length_nil]
  rw [if_neg (by omega)]
  by_cases hbe : st.bitstreams.isEmpty
  · cases e with
    | noSuchFile => simp [hbe, hf]
    | ioError m => simp [hbe, hf]
  · have ht : (bitstreamTake st.bitstreams name).1 = none := by
      rw [bitstreamTake_fst]
      exact hbs
    cases e with
    | noSuchFile => simp [hbe, joinedPath_single, ht, hf]
    | ioError m => simp [hbe, joinedPath_single, ht, hf]

/-- C6: when every candidate everywhere is missing the load is silent (no
handle, no diagnostic); the I/O-error diagnostic, carrying the underlying
error text, is emitted exactly when the final error of the disk search is
not file-not-found; and errors on intermediate candidates never abort the
search — any found candidate, in order, is returned. -/
theorem c6_notfound_silent_io_error_reported (env : Env) (st : LoaderState)
    (il : Option Nat) (name : String) (eLoc : Option Nat)
    (hbs : bitstreamValue st.bitstreams name = none) :
    ((∀ p, env.fs p = FileResult.noSuchFile) →
      (loadModule env st il [(name, eLoc)]).result = none ∧
      (loadModule env st il [(name, eLoc)]).diags = []) ∧
    ((findModule env name eLoc).2 = Except.error FindErr.noSuchFile →
      (loadModule env st il [(name, eLoc)]).result = none ∧
      (loadModule env st il [(name, eLoc)]).diags = []) ∧
    (∀ m, (findModule env name eLoc).2 = Except.error (FindErr.ioError m) →
      (loadModule env st il [(name, eLoc)]).result = none ∧
      (loadModule env st il [(name, eLoc)]).diags
        = [Diag.semaOpeningImport eLoc name m]) ∧
    (∀ b, (importerDirHit env name eLoc <|>
            (foundAt env (moduleFilename env name) <|> searchPathsHit env name))
          = some b →
      (findModule env name eLoc).2 = Except.ok b) := by
  refine ⟨?_, ?_, ?_, ?_⟩
  · intro hall
    exact loadModule_find_error env st il name eLoc FindErr.noSuchFile hbs
      (findModule_all_noSuchFile env name eLoc hall)
  · intro hf
    exact loadModule_find_error env st il name eLoc FindErr.noSuchFile hbs hf
  · intro m hf
    exact loadModule_find_error env st il name eLoc (FindErr.ioError m) hbs hf
  · intro b hfirst
    have hok := findModule_okBuffer env name eLoc
    rw [hfirst] at hok
    cases hf : (findModule env name eLoc).2 with
    | error e => rw [hf] at hok; cases e <;> simp [okBuffer] at hok
    | ok b2 =>
      rw [hf] at hok
      simp only [okBuffer, Option.some_inj] at hok
      rw [hok]

/-- A filesystem where the only working-directory candidate fails with a
permission error and everything else is missing. -/
def envDenied : Env :=
  { fs := fun p => if p = ("M.sm") then FileResult.ioError ("permission denied")
                   else FileResult.noSuchFile
  , parse := fun _ => ParseResult.malformed
  , findBufferContainingLoc := fun _ => 0
  , bufferIdentifier := fun _ => ("")
  , parentPath := fun _ => ("")
  , appendPath := fun a b => a ++ ("/") ++ b
  , importSearchPaths := []
  , moduleExtension := ("sm") }

/-- C6 witness: with no pre-registered buffer, a final-candidate permission
error produces exactly one diagnostic carrying the system error text, and a
fully-missing search produces none. -/
theorem c6_witness_denied_and_silent :
    ((loadModule envDenied emptyState none [(("M"), none)]).diags
      = [Diag.semaOpeningImport none ("M") ("permission denied")] ∧
     (loadModule envDenied emptyState none [(("M"), none)]).result = none) ∧
    ((loadModule envNothing emptyState none [(("M"), none)]).diags = [] ∧
     (loadModule envNothing emptyState none [(("M"), none)]).result = none) := by
  have h1 := c6_notfound_silent_io_error_reported envDenied emptyState none ("M")
    none (by decide)
  have h2 := c6_notfound_silent_io_error_reported envNothing emptyState none ("M")
    none (by decide)
  have ha := h1.2.2.1 ("permission denied") (by rfl)
  have hb := h2.1 (fun p => rfl)
  exact ⟨⟨ha.2, ha.1⟩, ⟨hb.2, hb.1⟩⟩

/-- C7: every query operation on a Module Handle whose reader reference is
unset performs no work and returns its designated empty result: value
lookup and class-member lookup leave the vector of the caller untouched,
operator lookup returns nothing, imported-module enumeration leaves the
list untouched, visible-declaration and class-members lookup stream nothing
to the consumer, link-library enumeration invokes the callback on nothing,
and display-declaration enumeration adds nothing. -/
theorem c7_inert_handle_queries_noop (qe : QEnv) (m : SerializedModule)
    (h : m.File = none) (accessPath : List (String × Option Nat))
    (name : String) (lookupKind fixity : Nat) (includePrivate : Bool)
    (results imports decls : List Nat) :
    lookupValue qe m accessPath name lookupKind results = results ∧
    lookupOperator qe m name fixity = none ∧
    getImportedModules qe m imports includePrivate = imports ∧
    lookupVisibleDecls qe m accessPath lookupKind = [] ∧
    lookupClassMembers qe m accessPath = [] ∧
    lookupClassMember qe m accessPath name decls = decls ∧
    getLinkLibraries qe m = [] ∧
    getDisplayDecls qe m results = results := by
  refine ⟨?_, ?_, ?_, ?_, ?_, ?_, ?_, ?_⟩
  · unfold lookupValue
    rw [h]
    by_cases hs : scopedMismatch accessPath name <;> simp [hs]
  · unfold lookupOperator
    rw [h]
  · unfold getImportedModules
    rw [h]
  · unfold lookupVisibleDecls
    rw [h]
  · unfold lookupClassMembers
    rw [h]
  · unfold lookupClassMember
    rw [h]
  · unfold getLinkLibraries
    rw [h]
  · unfold getDisplayDecls
    rw [h]

/-- A record-query environment in which every delegated operation would
return a visible, non-empty answer. -/
def qeNontrivial : QEnv :=
  { mfLookupValue := fun _ _ _ => [7]
  , mfLookupOperator := fun _ _ _ => some 7
  , mfGetImportedModules := fun _ _ => [7]
  , mfLookupVisibleDecls := fun _ _ _ => [7]
  , mfLoadExtensions := fun _ _ => [7]
  , mfLoadDeclsConformingTo := fun _ _ => [7]
  , mfLookupClassMembers := fun _ _ => [7]
  , mfLookupClassMember := fun _ _ _ => [7]
  , mfGetLinkLibraries := fun _ => [7]
  , mfGetDisplayDecls := fun _ => [7] }

/-- A handle whose reader reference is unset. -/
def inertHandle : SerializedModule := ⟨("M"), ("M.sm"), none⟩

/-- C7 witness: the no-op behavior on a concrete inert handle, against a
delegate that would answer non-trivially if it were ever consulted. -/
theorem c7_witness_inert_handle :
    lookupValue qeNontrivial inertHandle [] ("x") 0 [1, 2] = [1, 2] ∧
    lookupOperator qeNontrivial inertHandle ("x") 0 = none ∧
    getImportedModules qeNontrivial inertHandle [3] true = [3] ∧
    lookupVisibleDecls qeNontrivial inertHandle [] 0 = [] ∧
    lookupClassMembers qeNontrivial inertHandle [] = [] ∧
    lookupClassMember qeNontrivial inertHandle [] ("x") [4] = [4] ∧
    getLinkLibraries qeNontrivial inertHandle = [] ∧
    getDisplayDecls qeNontrivial inertHandle [1, 2] = [1, 2] :=
  c7_inert_handle_queries_noop qeNontrivial inertHandle rfl [] ("x") 0 0 true
    [1, 2] [3] [4]

/-- C8: a module path with more than one element yields no handle, consults
neither the pre-registered buffer map nor the filesystem, changes no state,
and emits no diagnostic. -/
theorem c8_submodule_path_rejected (env : Env) (st : LoaderState)
    (il : Option Nat) (path : List (String × Option Nat))
    (h : 1 < path.length) :
    loadModule env st il path
      = { result := none, usedBuffer := none, state := st, diags := [],
          fsProbes := [], bitstreamLookups := [], fatal := false } := by
  unfold loadModule
  rw [if_pos h]

/-- C8 witness: a concrete two-element path is rejected with no activity,
on a context whose map holds a buffer and a filesystem holding the file —
neither is touched. -/
theorem c8_witness_two_element_path :
    loadModule envMissingDep stateWithBitstream none [(("M"), none), (("N"), none)]
      = { result := none, usedBuffer := none, state := stateWithBitstream,
          diags := [], fsProbes := [], bitstreamLookups := [], fatal := false } :=
  c8_submodule_path_rejected envMissingDep stateWithBitstream none
    [(("M"), none), (("N"), none)] (by decide)

/-- C9: `loadExtensions` and `loadDeclsConformingTo` visit exactly the
registry entries whose recorded generation is strictly greater than
`previousGeneration`, in registration order, delegating to each visited
record; entries at or below `previousGeneration` are skipped. -/
theorem c9_generation_filter (qe : QEnv) (entries : List (ModuleFileData × Nat))
    (nominal kind previousGeneration : Nat) :
    loadExtensions qe entries nominal previousGeneration
      = (entries.filter (fun p => decide (previousGeneration < p.2))).map
          (fun p => (p.1, qe.mfLoadExtensions p.1 nominal)) ∧
    loadDeclsConformingTo qe entries kind previousGeneration
      = (entries.filter (fun p => decide (previousGeneration < p.2))).map
          (fun p => (p.1, qe.mfLoadDeclsConformingTo p.1 kind)) := by
  constructor
  · induction entries with
    | nil => rfl
    | cons p rest ih =>
      by_cases hp : p.2 ≤ previousGeneration
      · have hnp : ¬ previousGeneration < p.2 := not_lt.mpr hp
        simp [loadExtensions, hp, hnp, ih]
      · have hlt : previousGeneration < p.2 := not_le.mp hp
        simp [loadExtensions, hp, hlt, ih]
  · induction entries with
    | nil => rfl
    | cons p rest ih =>
      by_cases hp : p.2 ≤ previousGeneration
      · have hnp : ¬ previousGeneration < p.2 := not_lt.mpr hp
        simp [loadDeclsConformingTo, hp, hnp, ih]
      · have hlt : previousGeneration < p.2 := not_le.mp hp
        simp [loadDeclsConformingTo, hp, hlt, ih]

/-- C10: when the import location is valid but the parent directory of the
identifier of the containing buffer is empty, the importer-directory step is
skipped silently — the whole search behaves exactly as if the location were
invalid, and its first probe is the current-working-directory candidate. -/
theorem c10_empty_parent_directory_skipped (env : Env) (name : String) (l : Nat)
    (h : env.parentPath (env.bufferIdentifier (env.findBufferContainingLoc l))
          = ("")) :
    findModule env name (some l) = findModule env name none ∧
    (findModule env name (some l)).1.head? = some (moduleFilename env name) := by
  have hc : importerDirCandidate env (some l) = none := by
    simp [importerDirCandidate, h]
  have heq : findModule env name (some l) = findModule env name none := by
    unfold findModule
    rw [hc]
    rfl
  refine ⟨heq, ?_⟩
  rw [heq]
  unfold findModule
  simp only [importerDirCandidate]
  cases hf : env.fs (moduleFilename env name) <;> simp

/-- C10 witness: a concrete environment whose parent-path resolution is
empty behaves as if the import location were invalid, probing the working
directory first. -/
theorem c10_witness_empty_parent :
    findModule envMissingDep ("M") (some 5) = findModule envMissingDep ("M") none ∧
    (findModule envMissingDep ("M") (some 5)).1.head? = some ("M.sm") := by
  have h := c10_empty_parent_directory_skipped envMissingDep ("M") 5 rfl
  refine ⟨h.1, ?_⟩
  rw [h.2]
  rfl

end SML
